import Mathlib

/-!
Shallow embedding of the CodeBoard SwitchPrint bridge service
(src/backend/python_bridge/switchprint_service.py) and the FastText worker
(src/backend/python_workers/fasttext_worker.py).

Python floats are modelled as rationals, Python lists as Lean lists, the
insertion-ordered Python dict used as the cache as an association list kept in
insertion order.  Detector calls, which may raise, are modelled as
Except-valued oracles supplied through an environment record.  Wall-clock
readings are passed in as parameters.
-/

namespace CodeBoard

/-!
String primitives.  The Python string operations the service uses
(`split`, `strip`, `lower`, `upper`, slicing, single-character `replace`)
are given structurally recursive implementations over the character list of
the string, so that every definition evaluates inside the kernel.  Case
mapping is ASCII, which covers the language names and codes involved.
-/

/-- Helper for `pySplit`: accumulate the current word (reversed). -/
def splitWsAux : List Char → List Char → List String
  | [], acc => if acc.isEmpty then [] else [String.mk acc.reverse]
  | c :: cs, acc =>
    if c.isWhitespace then
      if acc.isEmpty then splitWsAux cs []
      else String.mk acc.reverse :: splitWsAux cs []
    else splitWsAux cs (c :: acc)

/-- Python `text.split()`: split on whitespace runs, dropping empty pieces. -/
def pySplit (s : String) : List String := splitWsAux s.data []

/-- Python `str.strip()`: drop whitespace at both ends. -/
def pyStrip (s : String) : String :=
  String.mk (((s.data.dropWhile Char.isWhitespace).reverse.dropWhile
    Char.isWhitespace).reverse)

/-- Python `str.lower()` (ASCII). -/
def pyLower (s : String) : String := String.mk (s.data.map Char.toLower)

/-- Python `str.upper()` (ASCII). -/
def pyUpper (s : String) : String := String.mk (s.data.map Char.toUpper)

/-- Python `s[:n]`. -/
def pyTake (s : String) (n : Nat) : String := String.mk (s.data.take n)

/-- Replacing every occurrence of a nonempty pattern, left to right, by the
empty string (Python `str.replace(pat, "")`); the first argument is fuel,
instantiated with the length of the scanned list. -/
def removeAllAux (pat : List Char) : Nat → List Char → List Char
  | 0, l => l
  | _ + 1, [] => []
  | n + 1, c :: cs =>
    if pat.isPrefixOf (c :: cs) then removeAllAux pat n ((c :: cs).drop pat.length)
    else c :: removeAllAux pat n cs

/-- Python `s.replace(pat, "")` for a nonempty `pat`. -/
def removeAll (pat : String) (s : String) : String :=
  String.mk (removeAllAux pat.data s.data.length s.data)

/-- A token dict as built by the service and the worker:
`{word, lang, language, confidence}`. -/
structure Token where
  word : String
  lang : String
  language : String
  confidence : ℚ
deriving Repr, DecidableEq, Inhabited

/-- A phrase dict: `{words, text, language, confidence, startIndex, endIndex,
isUserLanguage}`.  `isUserLanguage` records the truthiness of the Python
expression stored there. -/
structure Phrase where
  words : List String
  text : String
  language : String
  confidence : ℚ
  startIndex : Int
  endIndex : Int
  isUserLanguage : Bool
deriving Repr, DecidableEq, Inhabited

/-- The `context_optimization` dict assembled by `_convert_v2_1_2_result`
from the optimizer result attributes. -/
structure ContextOptimization where
  text_type : String
  optimal_window_size : Int
  improvement_score : ℚ
  context_enhanced_confidence : ℚ
  optimization_applied : Bool
deriving Repr, DecidableEq, Inhabited

/-- The `SwitchPrintResult` dataclass, with its field defaults. -/
structure SwitchPrintResult where
  tokens : List Token
  phrases : List Phrase
  switch_points : List Int
  confidence : ℚ
  user_language_match : Bool
  detected_languages : List String
  processing_time_ms : ℚ
  cache_hit : Bool := false
  calibrated_confidence : ℚ := 0
  reliability_score : ℚ := 0
  quality_assessment : String := "unknown"
  calibration_method : String := "none"
  context_optimization : Option ContextOptimization := none
  performance_mode : String := "balanced"
  version : String := "2.1.2"
deriving Repr, DecidableEq, Inhabited

/-- The attributes `_convert_v2_1_2_result` reads off the primary detector
result (`getattr` with defaults is modelled by the field always being
present, possibly holding the default). -/
structure IntegratedResult where
  original_confidence : ℚ
  calibrated_confidence : ℚ
  reliability_score : ℚ
  quality_assessment : String
  calibration_method : String
  detected_languages : List String
  switch_points : List Int
deriving Repr, DecidableEq, Inhabited

/-- A legacy switch-point entry: either a bare index or a list/tuple whose
first element is the index (`_convert_legacy_result` lines 392-398). -/
inductive LegacySwitchPoint where
  | idx (i : Int)
  | tup (l : List Int)
deriving Repr, DecidableEq, Inhabited

/-- The attributes `_convert_legacy_result` reads off a legacy detector
result.  `has_switch_points` models the `hasattr` probe. -/
structure EnsembleResult where
  detected_languages : List String
  confidence : ℚ
  has_switch_points : Bool
  switch_points : List LegacySwitchPoint
deriving Repr, DecidableEq, Inhabited

/-- Switch-point extraction in `_convert_legacy_result`: keep `sp[0]` of a
nonempty list/tuple, keep a bare int, silently drop an empty tuple. -/
def extractLegacySP : List LegacySwitchPoint → List Int
  | [] => []
  | .idx i :: r => i :: extractLegacySP r
  | .tup [] :: r => extractLegacySP r
  | .tup (i :: _) :: r => i :: extractLegacySP r

/-- One step of the v2.1.2 token walk: on a switch-point index the current
language index advances cyclically, `(current_lang_idx + 1) % len`. -/
def stepV2 (sps : List Int) (n : Nat) (idx i : Nat) : Nat :=
  if sps ≠ [] ∧ (i : Int) ∈ sps then (idx + 1) % n else idx

/-- The v2.1.2 multi-language token loop (lines 259-271): walk the words,
advancing the language index cyclically at switch points; the advance for
index `i` happens before the token for `i` is emitted. -/
def walkV2 (langs : List String) (sps : List Int) (conf : ℚ) :
    List String → Nat → Nat → List Token
  | [], _, _ => []
  | w :: ws, i, idx =>
    let idx' := stepV2 sps langs.length idx i
    let lang := if langs.isEmpty then "unknown" else langs.getD idx' "unknown"
    ⟨w, lang, lang, conf⟩ :: walkV2 langs sps conf ws (i + 1) idx'

/-- Token creation in `_convert_v2_1_2_result` (lines 256-281). -/
def assignTokensV2 (words langs : List String) (sps : List Int) (conf : ℚ) :
    List Token :=
  if 1 < langs.length ∧ sps ≠ [] then
    walkV2 langs sps conf words 0 0
  else
    let lang := langs.headD "unknown"
    words.map fun w => ⟨w, lang, lang, conf⟩

/-- One step of the legacy token walk: advance only while strictly below the
last language index (clamp-at-last convention, line 408). -/
def stepLegacy (sps : List Int) (n : Nat) (idx i : Nat) : Nat :=
  if (i : Int) ∈ sps ∧ idx < n - 1 then idx + 1 else idx

/-- The legacy multi-language token loop (lines 404-417). -/
def walkLegacy (langs : List String) (sps : List Int) (conf : ℚ) :
    List String → Nat → Nat → List Token
  | [], _, _ => []
  | w :: ws, i, idx =>
    let idx' := stepLegacy sps langs.length idx i
    let lang := if idx' < langs.length then langs.getD idx' "unknown"
                else langs.headD "unknown"
    ⟨w, lang, lang, conf⟩ :: walkLegacy langs sps conf ws (i + 1) idx'

/-- Token creation in `_convert_legacy_result` (lines 401-427). -/
def assignTokensLegacy (words langs : List String) (sps : List Int) (conf : ℚ) :
    List Token :=
  if 1 < langs.length ∧ sps ≠ [] then
    walkLegacy langs sps conf words 0 0
  else
    let lang := langs.headD "unknown"
    words.map fun w => ⟨w, lang, lang, conf⟩

/-- Closing a phrase in the two bridge conversions (lines 292-298 and
439-444): space-joined text, uniform confidence, `endIndex = startIndex +
len(words) - 1`, and `isUserLanguage` the truthiness of
`user_languages and language in user_languages` (case-sensitive membership). -/
def closeBridgePhrase (ws : List String) (lang : String) (start : Nat)
    (conf : ℚ) (userLangs : List String) : Phrase :=
  { words := ws
    text := String.intercalate " " ws
    language := lang
    confidence := conf
    startIndex := (start : Int)
    endIndex := (start : Int) + ws.length - 1
    isUserLanguage := (!userLangs.isEmpty) && userLangs.contains lang }

/-- The phrase-grouping loop body shared verbatim by the two bridge
conversions (lines 288-311 and 434-457): `i` is the index of the next token,
the accumulator holds the open phrase. -/
def groupBridgeGo (conf : ℚ) (userLangs : List String) :
    List Token → Nat → List String → String → Nat → List Phrase
  | [], _, curWords, curLang, curStart =>
    [closeBridgePhrase curWords curLang curStart conf userLangs]
  | t :: ts, i, curWords, curLang, curStart =>
    if t.lang == curLang then
      groupBridgeGo conf userLangs ts (i + 1) (curWords ++ [t.word]) curLang curStart
    else
      closeBridgePhrase curWords curLang curStart conf userLangs ::
        groupBridgeGo conf userLangs ts (i + 1) [t.word] t.lang i

/-- Phrase grouping in the bridge conversions: empty token list gives no
phrases, otherwise the left-to-right scan. -/
def groupBridge (toks : List Token) (conf : ℚ) (userLangs : List String) :
    List Phrase :=
  match toks with
  | [] => []
  | t :: ts => groupBridgeGo conf userLangs ts 1 [t.word] t.lang 0

/-- Result-level user-language match in both bridge conversions (lines
325-327 and 460-462): truthiness of the guard, then a case-folded
membership test. -/
def bridgeUserMatch (userLangs detected : List String) : Bool :=
  (!userLangs.isEmpty) && (!detected.isEmpty) &&
    userLangs.any fun ul => (detected.map pyLower).contains (pyLower ul)

/-- `_convert_v2_1_2_result` (lines 232-346).  The `context_result` argument
is accepted and never read, exactly as in the source.  `switchprintVersion`
models the module-level `SWITCHPRINT_VERSION` constant. -/
def convert_v2_1_2_result (sp : IntegratedResult) (context_result : Option Unit)
    (optimization_result : Option ContextOptimization) (text : String)
    (userLangs : List String) (elapsedMs : ℚ) (performanceMode : String)
    (switchprintVersion : String) : SwitchPrintResult :=
  let words := pySplit text
  let tokens := assignTokensV2 words sp.detected_languages sp.switch_points
    sp.calibrated_confidence
  let phrases := groupBridge tokens sp.calibrated_confidence userLangs
  { tokens := tokens
    phrases := phrases
    switch_points := sp.switch_points
    confidence := sp.original_confidence
    user_language_match := bridgeUserMatch userLangs sp.detected_languages
    detected_languages := sp.detected_languages
    processing_time_ms := elapsedMs
    cache_hit := false
    calibrated_confidence := sp.calibrated_confidence
    reliability_score := sp.reliability_score
    quality_assessment := sp.quality_assessment
    calibration_method := sp.calibration_method
    context_optimization := optimization_result
    performance_mode := performanceMode
    version := switchprintVersion }

/-- `_convert_legacy_result` (lines 372-482). -/
def convert_legacy_result (sp : EnsembleResult) (text : String)
    (userLangs : List String) (elapsedMs : ℚ) : SwitchPrintResult :=
  let words := pySplit text
  let sps := if sp.has_switch_points then extractLegacySP sp.switch_points else []
  let tokens := assignTokensLegacy words sp.detected_languages sps sp.confidence
  let phrases := groupBridge tokens sp.confidence userLangs
  { tokens := tokens
    phrases := phrases
    switch_points := sps
    confidence := sp.confidence
    user_language_match := bridgeUserMatch userLangs sp.detected_languages
    detected_languages := sp.detected_languages
    processing_time_ms := elapsedMs
    cache_hit := false
    calibrated_confidence := sp.confidence
    reliability_score := 0
    quality_assessment := "legacy"
    calibration_method := "none"
    context_optimization := none
    performance_mode := "legacy"
    version := "legacy" }

/-- `_get_mock_result` (lines 484-524).  The `error` parameter is accepted
and never read by the source body; the dataclass defaults fill the remaining
fields, in particular `version = "2.1.2"`. -/
def get_mock_result (text : String) (userLangs : List String) (elapsedMs : ℚ)
    (error : Option String) : SwitchPrintResult :=
  let words := pySplit text
  let mockLang := if userLangs.isEmpty then "english" else userLangs.headD "english"
  { tokens := words.map fun w => ⟨w, mockLang, mockLang, 85/100⟩
    phrases := [{ words := words
                  text := text
                  language := mockLang
                  confidence := 85/100
                  startIndex := 0
                  endIndex := (words.length : Int) - 1
                  isUserLanguage := true }]
    switch_points := []
    confidence := 85/100
    user_language_match := true
    detected_languages := [mockLang]
    processing_time_ms := elapsedMs
    cache_hit := false }

/-- The mutable state of `SwitchPrintService`: the insertion-ordered cache
dict (modelled as an association list kept in insertion order) and the two
counters. -/
structure ServiceState where
  cache : List (String × SwitchPrintResult)
  cache_hits : Nat
  total_requests : Nat
deriving Repr, Inhabited

/-- The freshly constructed service: empty cache, zero counters. -/
def initialState : ServiceState := ⟨[], 0, 0⟩

/-- A detector environment for one `analyze_text` call: which components were
constructed, and what each component call would do (success value or raised
exception) on this input.  `switchprint_version` models the module constant. -/
structure DetectorEnv where
  integrated_available : Bool
  primary_result : Except String IntegratedResult
  context_available : Bool
  context_run : Except String Unit
  optimizer_available : Bool
  optimizer_run : Except String ContextOptimization
  dashboard_available : Bool
  dashboard_run : Except String Unit
  legacy_available : Bool
  fasttext_available : Bool
  legacy_result : Except String EnsembleResult
  fasttext_result : Except String EnsembleResult
  switchprint_version : String

/-- The cache key (line 167): note the user languages joined in the order
given, not sorted. -/
def cacheKey (text : String) (userLangs : List String)
    (performanceMode : String) : String :=
  "v2.1.2:" ++ text ++ ":" ++ String.intercalate "," userLangs ++ ":"
    ++ performanceMode

/-- Python dict assignment on a string key: replace in place when the key is
present (keeping its insertion position), else append. -/
def dictInsert (c : List (String × SwitchPrintResult)) (k : String)
    (v : SwitchPrintResult) : List (String × SwitchPrintResult) :=
  if c.any fun kv => kv.1 == k then
    c.map fun kv => if kv.1 == k then (k, v) else kv
  else c ++ [(k, v)]

/-- Cache lookup: `cache_key in self.cache` / `self.cache[cache_key]`. -/
def cacheFind (c : List (String × SwitchPrintResult)) (k : String) :
    Option SwitchPrintResult :=
  (c.find? fun kv => kv.1 == k).map fun kv => kv.2

/-- `_fallback_analysis` (lines 348-370): no legacy detector gives the mock
directly; otherwise `fast_mode` with a constructed FastText detector picks
that one, else the ensemble detector; an exception from the chosen detector
gives the mock with the exception text as the (ignored) `error` argument. -/
def fallback_analysis (env : DetectorEnv) (text : String)
    (userLangs : List String) (elapsedMs : ℚ) (fastMode : Bool) :
    SwitchPrintResult :=
  if ¬ env.legacy_available then get_mock_result text userLangs elapsedMs none
  else
    let chosen := if fastMode ∧ env.fasttext_available then env.fasttext_result
                  else env.legacy_result
    match chosen with
    | .ok sp => convert_legacy_result sp text userLangs elapsedMs
    | .error e => get_mock_result text userLangs elapsedMs (some e)

/-- `analyze_text` (lines 144-230), returning the result and the next service
state.  On a cache hit the stored object is mutated in place (`cache_hit`,
`processing_time_ms`), modelled by also updating the cache entry.  On the
primary path each enrichment stage is tried in isolation; the dashboard call
result is discarded and the context result is passed to the conversion, which
ignores it.  After a cached store, sizes above 1000 drop the first 100 keys
in insertion order. -/
def analyze_text (env : DetectorEnv) (st : ServiceState) (text : String)
    (userLangs : List String) (useCache fastMode : Bool)
    (performanceMode : String) (elapsedMs : ℚ) :
    SwitchPrintResult × ServiceState :=
  let st1 : ServiceState := { st with total_requests := st.total_requests + 1 }
  let key := cacheKey text userLangs performanceMode
  match (if useCache then cacheFind st1.cache key else none) with
  | some cached =>
    let r := { cached with cache_hit := true, processing_time_ms := elapsedMs }
    (r, { st1 with cache_hits := st1.cache_hits + 1
                   cache := dictInsert st1.cache key r })
  | none =>
    if ¬ env.integrated_available then
      (fallback_analysis env text userLangs elapsedMs fastMode, st1)
    else
      match env.primary_result with
      | .error _ => (fallback_analysis env text userLangs elapsedMs fastMode, st1)
      | .ok sp =>
        let contextResult : Option Unit :=
          if env.context_available then env.context_run.toOption else none
        let optimizationResult : Option ContextOptimization :=
          if env.optimizer_available then env.optimizer_run.toOption else none
        let r := convert_v2_1_2_result sp contextResult optimizationResult
          text userLangs elapsedMs performanceMode env.switchprint_version
        if useCache then
          let c1 := dictInsert st1.cache key r
          let c2 := if 1000 < c1.length then c1.drop 100 else c1
          (r, { st1 with cache := c2 })
        else
          (r, st1)

/-- `clear_cache` (lines 536-539): empties the dict, touches no counter. -/
def clear_cache (st : ServiceState) : ServiceState := { st with cache := [] }

/-- The dict returned by `get_cache_stats` (lines 526-534), without the
module-level availability flag. -/
structure CacheStats where
  total_requests : Nat
  cache_hits : Nat
  cache_size : Nat
  hit_rate : ℚ
deriving Repr, DecidableEq

/-- `get_cache_stats`: `hit_rate = cache_hits / max(total_requests, 1)`. -/
def get_cache_stats (st : ServiceState) : CacheStats :=
  { total_requests := st.total_requests
    cache_hits := st.cache_hits
    cache_size := st.cache.length
    hit_rate := (st.cache_hits : ℚ) / (max st.total_requests 1 : ℚ) }

/-! The FastText worker. -/

/-- `_code_to_name` in the worker: the literal map, falling back to the
uppercased code. -/
def codeToName (code : String) : String :=
  match code with
  | "en" => "English" | "es" => "Spanish" | "hi" => "Hindi"
  | "zh" => "Chinese" | "fr" => "French" | "ar" => "Arabic"
  | "pt" => "Portuguese" | "ru" => "Russian" | "ja" => "Japanese"
  | "de" => "German" | "ko" => "Korean" | "it" => "Italian"
  | "nl" => "Dutch" | "sv" => "Swedish" | "no" => "Norwegian"
  | "tl" => "Tagalog" | "ur" => "Urdu" | "bn" => "Bengali"
  | "vi" => "Vietnamese" | "tr" => "Turkish" | "pl" => "Polish"
  | "uk" => "Ukrainian" | "cs" => "Czech" | "el" => "Greek"
  | "he" => "Hebrew" | "th" => "Thai" | "ro" => "Romanian"
  | "hu" => "Hungarian" | "fi" => "Finnish" | "bg" => "Bulgarian"
  | "hr" => "Croatian" | "sk" => "Slovak" | "lt" => "Lithuanian"
  | "lv" => "Latvian" | "et" => "Estonian" | "sl" => "Slovenian"
  | "mk" => "Macedonian" | "sq" => "Albanian" | "sr" => "Serbian"
  | "bs" => "Bosnian" | "mt" => "Maltese"
  | _ => pyUpper code

/-- The worker `languages_map` lookup (name → code). -/
def languagesMap (s : String) : Option String :=
  match s with
  | "english" => some "en" | "spanish" => some "es" | "hindi" => some "hi"
  | "mandarin" => some "zh" | "chinese" => some "zh" | "french" => some "fr"
  | "arabic" => some "ar" | "portuguese" => some "pt" | "russian" => some "ru"
  | "japanese" => some "ja" | "german" => some "de" | "korean" => some "ko"
  | "italian" => some "it" | "dutch" => some "nl" | "swedish" => some "sv"
  | "norwegian" => some "no" | "tagalog" => some "tl" | "urdu" => some "ur"
  | "bengali" => some "bn" | "vietnamese" => some "vi" | "turkish" => some "tr"
  | "polish" => some "pl" | "ukrainian" => some "uk" | "czech" => some "cs"
  | "greek" => some "el" | "hebrew" => some "he" | "thai" => some "th"
  | "romanian" => some "ro" | "hungarian" => some "hu" | "finnish" => some "fi"
  | "bulgarian" => some "bg" | "croatian" => some "hr" | "slovak" => some "sk"
  | "lithuanian" => some "lt" | "latvian" => some "lv" | "estonian" => some "et"
  | "slovenian" => some "sl" | "macedonian" => some "mk" | "albanian" => some "sq"
  | "serbian" => some "sr" | "bosnian" => some "bs" | "montenegrin" => some "cnr"
  | "maltese" => some "mt"
  | _ => none

/-- `_normalize_language`: lowercase and strip, map lookup, else first two
characters. -/
def normalize_language (lang : String) : String :=
  let l := pyStrip (pyLower lang)
  (languagesMap l).getD (pyTake l 2)

/-- FastText labels arrive as `__label__xx`; the worker strips every
occurrence with `label.replace("__label__", "")`. -/
def stripLabel (s : String) : String := removeAll "__label__" s

/-- The loaded FastText model, as the worker uses it: ranked (label,
confidence) predictions for the whole text (k = 5) and for one word (k = 1). -/
structure WorkerModel where
  textPred : String → List (String × ℚ)
  wordPred : String → List (String × ℚ)

/-- `_create_phrase` (lines 223-237): average confidence, `startIndex` fixed
at 0 and `endIndex` set to the word count ("Simplified for now" in the
source), `isUserLanguage` fixed false. -/
def create_phrase (toks : List Token) : Phrase :=
  let ws := toks.map fun t => t.word
  { words := ws
    text := String.intercalate " " ws
    language := (toks.headD default).language
    confidence := (toks.map fun t => t.confidence).sum / (toks.length : ℚ)
    startIndex := 0
    endIndex := (ws.length : Int)
    isUserLanguage := false }

/-- The worker grouping loop (lines 177-189): extend the run while the next
token has the same `lang` code as the last accumulated token. -/
def workerGroups : List Token → List Token → List (List Token)
  | cur, [] => [cur]
  | cur, t :: ts =>
    if t.lang == (cur.getLastD default).lang then workerGroups (cur ++ [t]) ts
    else cur :: workerGroups [t] ts

/-- Worker phrases: group runs of equal `lang`, then `_create_phrase` each. -/
def workerPhrases (toks : List Token) : List Phrase :=
  match toks with
  | [] => []
  | t :: ts => (workerGroups [t] ts).map create_phrase

/-- Worker switch points (lines 191-195): for each adjacent phrase pair with
differing `language` names, the earlier phrase endIndex. -/
def workerSwitchPoints : List Phrase → List Int
  | p :: q :: r =>
    if p.language ≠ q.language then p.endIndex :: workerSwitchPoints (q :: r)
    else workerSwitchPoints (q :: r)
  | _ => []

/-- One entry of the ranked whole-text prediction list. -/
structure DetectedLanguage where
  language : String
  confidence : ℚ
  name : String
deriving Repr, DecidableEq, Inhabited

/-- The success payload of the worker `detect_language`, without the
`processing` metadata block (time, engine and model path strings). -/
structure WorkerResult where
  tokens : List Token
  phrases : List Phrase
  switchPoints : List Int
  confidence : ℚ
  userLanguageMatch : Bool
  detectedLanguages : List String
deriving Repr, DecidableEq, Inhabited

/-- The worker token loop body (lines 163-174). -/
def workerToken (m : WorkerModel) (w : String) : Token :=
  let wp := m.wordPred w
  let wlang := match wp with
    | [] => "unknown"
    | (l, _) :: _ => stripLabel l
  let wconf : ℚ := match wp with
    | [] => 0
    | (_, c) :: _ => c
  ⟨w, wlang, codeToName wlang, wconf⟩

/-- `detect_language` in the worker (lines 123-221): uninitialized model and
blank cleaned text are error returns; otherwise whole-text top-5 predictions,
per-word top-1 tokens, phrase grouping, switch points from phrase
boundaries, and a code-space user-language match against the top
prediction. -/
def worker_detect (m : WorkerModel) (modelLoaded : Bool) (text : String)
    (userLangs : List String) : Except String WorkerResult :=
  if ¬ modelLoaded then .error "FastText model not initialized"
  else
    let cleaned := pyStrip (String.mk (text.data.map fun c =>
      if c = '\n' then ' ' else if c = '\r' then ' ' else c))
    if cleaned.isEmpty then .error "Empty text provided"
    else
      let detected := (m.textPred cleaned).map fun lc =>
        (⟨stripLabel lc.1, lc.2, codeToName (stripLabel lc.1)⟩ : DetectedLanguage)
      let words := pySplit cleaned
      let tokens := words.map (workerToken m)
      let phrases := workerPhrases tokens
      let sps := workerSwitchPoints phrases
      let primary := detected.head?
      let ulm := match primary with
        | none => false
        | some p =>
          (!userLangs.isEmpty) && (userLangs.map normalize_language).contains p.language
      .ok { tokens := tokens
            phrases := phrases
            switchPoints := sps
            confidence := match primary with
              | none => 0
              | some p => p.confidence
            userLanguageMatch := ulm
            detectedLanguages := (detected.take 3).map fun d => d.name }

/-- One stdin line of the worker main loop, abstracted at the JSON boundary:
blank after strip; not valid JSON; valid JSON whose handling raises (for
example a non-dict value); or a parsed request with its `text` (missing
modelled as the empty string, the `get` default) and `languages`. -/
inductive WorkerLine where
  | blank
  | invalidJson (msg : String)
  | badRequest (msg : String)
  | request (text : String) (languages : List String)

/-- One stdout line the worker may emit in response. -/
inductive WorkerResponse where
  | errorResp (msg : String)
  | okResp (r : WorkerResult)
deriving DecidableEq

/-- The per-line behavior of the worker main loop (lines 300-333): blank
lines produce nothing; an invalid JSON line produces one
`Invalid JSON: ...` error line; a request whose handling raises produces one
`Processing failed: ...` error line; a falsy `text` produces one
`No text provided` error line; any other request produces exactly one
response line carrying the detection outcome. -/
def processLine (m : WorkerModel) (modelLoaded : Bool) :
    WorkerLine → List WorkerResponse
  | .blank => []
  | .invalidJson msg => [.errorResp ("Invalid JSON: " ++ msg)]
  | .badRequest msg => [.errorResp ("Processing failed: " ++ msg)]
  | .request text langs =>
    if text.isEmpty then [.errorResp "No text provided"]
    else match worker_detect m modelLoaded text langs with
      | .error e => [.errorResp e]
      | .ok r => [.okResp r]

/-- The worker request loop over a whole input stream. -/
def workerLoop (m : WorkerModel) (modelLoaded : Bool)
    (lines : List WorkerLine) : List WorkerResponse :=
  lines.flatMap (processLine m modelLoaded)

/-!
Specification predicates and helper lemmas.
-/

/-- How often the walk has advanced by the time token `i` is emitted: the
number of indices `j ≤ i` that lie in the supplied switch-point list
(list membership, so duplicates in the list advance only once per index). -/
def spCount (sps : List Int) (i : Nat) : Nat :=
  (List.range (i + 1)).countP fun j : Nat => decide ((j : Int) ∈ sps)

/-- Iterating the v2.1.2 step from state `idx0` over absolute indices
`i0, i0+1, ...`. -/
def stepsV2 (sps : List Int) (n : Nat) (idx0 i0 : Nat) : Nat → Nat
  | 0 => idx0
  | k + 1 => stepV2 sps n (stepsV2 sps n idx0 i0 k) (i0 + k)

/-- Iterating the legacy step. -/
def stepsLegacy (sps : List Int) (n : Nat) (idx0 i0 : Nat) : Nat → Nat
  | 0 => idx0
  | k + 1 => stepLegacy sps n (stepsLegacy sps n idx0 i0 k) (i0 + k)

/-- The phrase list is a contiguous, order-preserving, gap-free partition of
the token list starting at absolute index `i`: each phrase takes the next
`len(words)` tokens, carries their words and their (uniform) language, has
`startIndex` the current absolute index and `endIndex = startIndex +
len(words) - 1`, and the phrases jointly exhaust the tokens. -/
def coversFrom (i : Nat) : List Token → List Phrase → Prop
  | toks, [] => toks = []
  | toks, p :: ps =>
    p.words ≠ [] ∧
    p.words = (toks.take p.words.length).map Token.word ∧
    (∀ t ∈ toks.take p.words.length, t.lang = p.language) ∧
    p.startIndex = (i : Int) ∧
    p.endIndex = (i : Int) + p.words.length - 1 ∧
    coversFrom (i + p.words.length) (toks.drop p.words.length) ps

/-- `coversFrom` is decidable, so concrete runs can be checked by
evaluation. -/
def coversFromDec (i : Nat) (toks : List Token) :
    (ps : List Phrase) → Decidable (coversFrom i toks ps)
  | [] => by unfold coversFrom; infer_instance
  | p :: ps => by
    unfold coversFrom
    have := coversFromDec (i + p.words.length) (toks.drop p.words.length) ps
    exact instDecidableAnd

instance (i : Nat) (toks : List Token) (ps : List Phrase) :
    Decidable (coversFrom i toks ps) := coversFromDec i toks ps

/-- Strictly increasing integer list, by adjacent comparison. -/
def strictlyIncreasing : List Int → Prop
  | [] => True
  | [_] => True
  | a :: b :: r => a < b ∧ strictlyIncreasing (b :: r)

/-- `strictlyIncreasing` is decidable. -/
def strictlyIncreasingDec : (l : List Int) → Decidable (strictlyIncreasing l)
  | [] => by unfold strictlyIncreasing; infer_instance
  | [_] => by unfold strictlyIncreasing; infer_instance
  | _ :: b :: r => by
    unfold strictlyIncreasing
    have := strictlyIncreasingDec (b :: r)
    exact instDecidableAnd

instance (l : List Int) : Decidable (strictlyIncreasing l) :=
  strictlyIncreasingDec l

/-!
Concrete fixtures used by the counterexamples and witnesses below.
-/

/-- A tiny concrete FastText model: every whole text predicts English; the
word `cc` predicts Spanish, every other word English. -/
def exModel : WorkerModel where
  textPred _ := [("__label__en", 9/10)]
  wordPred w := if w == "cc" then [("__label__es", 8/10)] else [("__label__en", 7/10)]

/-- A concrete primary detector result: one detected language `english`,
no switch points. -/
def exSP : IntegratedResult :=
  { original_confidence := 1/2
    calibrated_confidence := 3/5
    reliability_score := 0
    quality_assessment := "unknown"
    calibration_method := "none"
    detected_languages := ["english"]
    switch_points := [] }

/-- An environment with no detector tier usable at all. -/
def envNoDet : DetectorEnv :=
  { integrated_available := false
    primary_result := .error "not constructed"
    context_available := false
    context_run := .error "not constructed"
    optimizer_available := false
    optimizer_run := .error "not constructed"
    dashboard_available := false
    dashboard_run := .error "not constructed"
    legacy_available := false
    fasttext_available := false
    legacy_result := .error "not constructed"
    fasttext_result := .error "not constructed"
    switchprint_version := "unavailable" }

/-- An environment whose primary detector succeeds with `exSP` and whose
enrichment stages all fail. -/
def envPrimary : DetectorEnv :=
  { integrated_available := true
    primary_result := .ok exSP
    context_available := true
    context_run := .error "ctx boom"
    optimizer_available := true
    optimizer_run := .error "opt boom"
    dashboard_available := true
    dashboard_run := .error "dash boom"
    legacy_available := true
    fasttext_available := true
    legacy_result := .error "legacy boom"
    fasttext_result := .error "fasttext boom"
    switchprint_version := "2.1.2" }

theorem coversFrom_sum :
    ∀ (ps : List Phrase) (i : Nat) (toks : List Token), coversFrom i toks ps →
      (ps.map fun p => p.words.length).sum = toks.length := by
  intro ps
  induction ps with
  | nil =>
    intro i toks h
    simp only [coversFrom] at h
    simp [h]
  | cons p ps ih =>
    intro i toks h
    obtain ⟨-, hw, -, -, -, hrest⟩ := h
    have hlen : p.words.length ≤ toks.length := by
      have := congrArg List.length hw
      simp only [List.length_map, List.length_take] at this
      omega
    have := ih (i + p.words.length) (toks.drop p.words.length) hrest
    simp only [List.length_drop] at this
    simp only [List.map_cons, List.sum_cons, this]
    omega

theorem groupBridgeGo_covers (conf : ℚ) (ul : List String) :
    ∀ (ts curToks : List Token) (curLang : String) (curStart : Nat),
      curToks ≠ [] → (∀ t ∈ curToks, t.lang = curLang) →
      coversFrom curStart (curToks ++ ts)
        (groupBridgeGo conf ul ts (curStart + curToks.length)
          (curToks.map Token.word) curLang curStart) := by
  intro ts
  induction ts with
  | nil =>
    intro curToks curLang curStart hne hlang
    simp only [groupBridgeGo, coversFrom, closeBridgePhrase, List.append_nil]
    refine ⟨by simpa using hne, ?_, ?_, by trivial, by simp, ?_⟩
    · simp [List.length_map, List.take_length]
    · intro t ht
      simp only [List.length_map, List.take_length] at ht
      exact hlang t ht
    · simp [List.length_map, List.drop_length, coversFrom]
  | cons t ts ih =>
    intro curToks curLang curStart hne hlang
    simp only [groupBridgeGo]
    by_cases heq : t.lang = curLang
    · simp only [heq, beq_self_eq_true, if_true]
      have h1 : curToks.map Token.word ++ [t.word] = (curToks ++ [t]).map Token.word := by
        simp
      have h2 : curStart + curToks.length + 1 = curStart + (curToks ++ [t]).length := by
        simp; omega
      rw [h1, h2]
      have h3 := ih (curToks ++ [t]) curLang curStart (by simp)
        (by intro x hx
            rcases List.mem_append.mp hx with hx | hx
            · exact hlang x hx
            · simp only [List.mem_singleton] at hx
              subst hx; exact heq)
      simpa [List.append_assoc] using h3
    · have hbeq : (t.lang == curLang) = false := by
        simp [heq]
      simp only [hbeq, Bool.false_eq_true, if_false]
      simp only [coversFrom, closeBridgePhrase]
      refine ⟨by simpa using hne, ?_, ?_, by trivial, by simp, ?_⟩
      · rw [List.length_map, List.take_left]
      · intro x hx
        rw [List.length_map, List.take_left] at hx
        exact hlang x hx
      · rw [List.length_map, List.drop_left]
        have h3 := ih [t] t.lang (curStart + curToks.length) (by simp) (by simp)
        simpa using h3

theorem groupBridge_covers (toks : List Token) (conf : ℚ) (ul : List String) :
    coversFrom 0 toks (groupBridge toks conf ul) := by
  match toks with
  | [] => simp [groupBridge, coversFrom]
  | t :: ts =>
    have h := groupBridgeGo_covers conf ul ts [t] t.lang 0 (by simp) (by simp)
    simpa [groupBridge] using h

/-- Every phrase the bridge grouping emits is a closed phrase, so its
`isUserLanguage` field is the case-sensitive membership boolean of its own
language. -/
theorem groupBridgeGo_isUserLanguage (conf : ℚ) (ul : List String) :
    ∀ (ts : List Token) (i : Nat) (curWords : List String) (curLang : String)
      (curStart : Nat) (p : Phrase),
      p ∈ groupBridgeGo conf ul ts i curWords curLang curStart →
      p.isUserLanguage = ((!ul.isEmpty) && ul.contains p.language) := by
  intro ts
  induction ts with
  | nil =>
    intro i curWords curLang curStart p hp
    simp only [groupBridgeGo, List.mem_singleton] at hp
    subst hp
    rfl
  | cons t ts ih =>
    intro i curWords curLang curStart p hp
    simp only [groupBridgeGo] at hp
    by_cases heq : (t.lang == curLang) = true
    · rw [if_pos heq] at hp
      exact ih _ _ _ _ p hp
    · rw [if_neg heq] at hp
      rcases List.mem_cons.mp hp with hp | hp
      · subst hp; rfl
      · exact ih _ _ _ _ p hp

theorem groupBridge_isUserLanguage (toks : List Token) (conf : ℚ)
    (ul : List String) (p : Phrase) (hp : p ∈ groupBridge toks conf ul) :
    p.isUserLanguage = ((!ul.isEmpty) && ul.contains p.language) := by
  match toks with
  | [] => simp [groupBridge] at hp
  | t :: ts => exact groupBridgeGo_isUserLanguage conf ul ts 1 [t.word] t.lang 0 p hp

/-- Every phrase the worker grouping emits comes from `create_phrase`. -/
theorem workerPhrases_shape (toks : List Token) (p : Phrase)
    (hp : p ∈ workerPhrases toks) :
    p.startIndex = 0 ∧ p.endIndex = (p.words.length : Int) ∧
      p.isUserLanguage = false := by
  match toks with
  | [] => simp [workerPhrases] at hp
  | t :: ts =>
    simp only [workerPhrases, List.mem_map] at hp
    obtain ⟨g, -, hg⟩ := hp
    subst hg
    refine ⟨rfl, ?_, rfl⟩
    simp [create_phrase]

theorem workerSwitchPoints_le :
    ∀ ps : List Phrase, (workerSwitchPoints ps).length ≤ ps.length - 1 := by
  intro ps
  match ps with
  | [] => simp [workerSwitchPoints]
  | [p] => simp [workerSwitchPoints]
  | p :: q :: r =>
    have ih := workerSwitchPoints_le (q :: r)
    simp only [workerSwitchPoints]
    by_cases h : p.language = q.language
    · rw [if_neg (by simpa using h)]
      simp only [List.length_cons] at ih ⊢
      omega
    · rw [if_pos (by simpa using h)]
      simp only [List.length_cons] at ih ⊢
      omega

theorem workerSwitchPoints_mem :
    ∀ (ps : List Phrase) (x : Int), x ∈ workerSwitchPoints ps →
      ∃ p ∈ ps, x = p.endIndex := by
  intro ps
  match ps with
  | [] => intro x hx; simp [workerSwitchPoints] at hx
  | [p] => intro x hx; simp [workerSwitchPoints] at hx
  | p :: q :: r =>
    intro x hx
    simp only [workerSwitchPoints] at hx
    by_cases h : p.language = q.language
    · rw [if_neg (by simpa using h)] at hx
      obtain ⟨p2, hp2, he⟩ := workerSwitchPoints_mem (q :: r) x hx
      exact ⟨p2, List.mem_cons_of_mem _ hp2, he⟩
    · rw [if_pos (by simpa using h)] at hx
      rcases List.mem_cons.mp hx with hx | hx
      · exact ⟨p, List.mem_cons_self _ _, hx⟩
      · obtain ⟨p2, hp2, he⟩ := workerSwitchPoints_mem (q :: r) x hx
        exact ⟨p2, List.mem_cons_of_mem _ hp2, he⟩

theorem stepsV2_shift (sps : List Int) (n : Nat) :
    ∀ (k idx0 i0 : Nat),
      stepsV2 sps n idx0 i0 (k + 1) = stepsV2 sps n (stepV2 sps n idx0 i0) (i0 + 1) k := by
  intro k
  induction k with
  | zero => intro idx0 i0; rfl
  | succ k ih =>
    intro idx0 i0
    show stepV2 sps n (stepsV2 sps n idx0 i0 (k + 1)) (i0 + (k + 1))
        = stepV2 sps n (stepsV2 sps n (stepV2 sps n idx0 i0) (i0 + 1) k) (i0 + 1 + k)
    rw [ih idx0 i0]
    congr 1
    omega

theorem stepsLegacy_shift (sps : List Int) (n : Nat) :
    ∀ (k idx0 i0 : Nat),
      stepsLegacy sps n idx0 i0 (k + 1)
        = stepsLegacy sps n (stepLegacy sps n idx0 i0) (i0 + 1) k := by
  intro k
  induction k with
  | zero => intro idx0 i0; rfl
  | succ k ih =>
    intro idx0 i0
    show stepLegacy sps n (stepsLegacy sps n idx0 i0 (k + 1)) (i0 + (k + 1))
        = stepLegacy sps n (stepsLegacy sps n (stepLegacy sps n idx0 i0) (i0 + 1) k) (i0 + 1 + k)
    rw [ih idx0 i0]
    congr 1
    omega

theorem spCount_succ (sps : List Int) (i : Nat) :
    spCount sps (i + 1)
      = spCount sps i + (if ((i + 1 : Nat) : Int) ∈ sps then 1 else 0) := by
  unfold spCount
  rw [List.range_succ, List.countP_append]
  by_cases h : ((i + 1 : Nat) : Int) ∈ sps <;>
    [skip; skip] <;>
    (push_cast at h ⊢; simp [List.countP_cons, List.countP_nil, h])

theorem spCount_zero (sps : List Int) :
    spCount sps 0 = if ((0 : Nat) : Int) ∈ sps then 1 else 0 := by
  unfold spCount
  rw [List.range_succ]
  by_cases h : ((0 : Nat) : Int) ∈ sps <;>
    [skip; skip] <;>
    (push_cast at h ⊢; simp [List.countP_cons, List.countP_nil, h])

theorem stepsV2_closed (sps : List Int) (n : Nat) (hn : 0 < n) :
    ∀ i : Nat, stepsV2 sps n 0 0 (i + 1) = spCount sps i % n := by
  intro i
  induction i with
  | zero =>
    show stepV2 sps n 0 0 = spCount sps 0 % n
    rw [spCount_zero]
    simp only [stepV2]
    by_cases h : ((0 : Nat) : Int) ∈ sps
    · rw [if_pos ⟨List.ne_nil_of_mem h, h⟩, if_pos h]
    · rw [if_neg (by tauto), if_neg h]
      simp [Nat.zero_mod]
  | succ i ih =>
    show stepV2 sps n (stepsV2 sps n 0 0 (i + 1)) (0 + (i + 1)) = spCount sps (i + 1) % n
    rw [ih, spCount_succ, Nat.zero_add]
    simp only [stepV2]
    by_cases h : ((i + 1 : Nat) : Int) ∈ sps
    · rw [if_pos ⟨List.ne_nil_of_mem h, h⟩, if_pos h, Nat.mod_add_mod]
    · rw [if_neg (by tauto), if_neg h]
      simp

theorem stepsLegacy_closed (sps : List Int) (n : Nat) (hn : 0 < n) :
    ∀ i : Nat, stepsLegacy sps n 0 0 (i + 1) = min (spCount sps i) (n - 1) := by
  intro i
  induction i with
  | zero =>
    show stepLegacy sps n 0 0 = min (spCount sps 0) (n - 1)
    rw [spCount_zero]
    simp only [stepLegacy]
    by_cases h : ((0 : Nat) : Int) ∈ sps
    · rw [if_pos h]
      by_cases h2 : 0 < n - 1
      · rw [if_pos ⟨h, h2⟩]; omega
      · rw [if_neg (by tauto)]; omega
    · rw [if_neg h, if_neg (by tauto)]
      simp
  | succ i ih =>
    show stepLegacy sps n (stepsLegacy sps n 0 0 (i + 1)) (0 + (i + 1))
        = min (spCount sps (i + 1)) (n - 1)
    rw [ih, spCount_succ, Nat.zero_add]
    simp only [stepLegacy]
    by_cases h : ((i + 1 : Nat) : Int) ∈ sps
    · rw [if_pos h]
      by_cases h2 : min (spCount sps i) (n - 1) < n - 1
      · rw [if_pos ⟨h, h2⟩]; omega
      · rw [if_neg (by tauto)]; omega
    · rw [if_neg h, if_neg (by tauto)]
      omega

theorem walkV2_get? (langs : List String) (sps : List Int) (conf : ℚ)
    (hne : langs ≠ []) :
    ∀ (ws : List String) (i0 idx0 k : Nat),
      (walkV2 langs sps conf ws i0 idx0).get? k
        = (ws.get? k).map fun w =>
            let lang := langs.getD (stepsV2 sps langs.length idx0 i0 (k + 1)) "unknown"
            ⟨w, lang, lang, conf⟩ := by
  intro ws
  induction ws with
  | nil => intro i0 idx0 k; simp [walkV2]
  | cons w ws ih =>
    intro i0 idx0 k
    match k with
    | 0 =>
      simp only [walkV2, List.get?_cons_zero, Option.map_some]
      have : langs.isEmpty = false := by
        cases langs with
        | nil => exact absurd rfl hne
        | cons a l => rfl
      simp only [this, Bool.false_eq_true, if_false]
      rfl
    | k + 1 =>
      simp only [walkV2, List.get?_cons_succ]
      rw [ih (i0 + 1) (stepV2 sps langs.length idx0 i0) k]
      rw [← stepsV2_shift]

theorem walkLegacy_get? (langs : List String) (sps : List Int) (conf : ℚ)
    (hne : langs ≠ []) :
    ∀ (ws : List String) (i0 idx0 k : Nat),
      (walkLegacy langs sps conf ws i0 idx0).get? k
        = (ws.get? k).map fun w =>
            let idx := stepsLegacy sps langs.length idx0 i0 (k + 1)
            let lang := if idx < langs.length then langs.getD idx "unknown"
                        else langs.headD "unknown"
            ⟨w, lang, lang, conf⟩ := by
  intro ws
  induction ws with
  | nil => intro i0 idx0 k; simp [walkLegacy]
  | cons w ws ih =>
    intro i0 idx0 k
    match k with
    | 0 =>
      simp only [walkLegacy, List.get?_cons_zero]
      rfl
    | k + 1 =>
      simp only [walkLegacy, List.get?_cons_succ]
      rw [ih (i0 + 1) (stepLegacy sps langs.length idx0 i0) k]
      rw [← stepsLegacy_shift]

theorem dictInsert_of_find_none (c : List (String × SwitchPrintResult))
    (k : String) (v : SwitchPrintResult) (h : cacheFind c k = none) :
    dictInsert c k v = c ++ [(k, v)] := by
  unfold dictInsert
  rw [if_neg]
  intro hany
  obtain ⟨kv, hkv, hbeq⟩ := List.any_eq_true.mp hany
  have : (c.find? fun kv => kv.1 == k) = none := by
    unfold cacheFind at h
    cases hf : c.find? fun kv => kv.1 == k with
    | none => rfl
    | some x => rw [hf] at h; simp at h
  exact (List.find?_eq_none.mp this kv hkv) hbeq

theorem dictInsert_length_le (c : List (String × SwitchPrintResult))
    (k : String) (v : SwitchPrintResult) :
    (dictInsert c k v).length ≤ c.length + 1 := by
  unfold dictInsert
  by_cases h : c.any fun kv => kv.1 == k
  · rw [if_pos h]; simp
  · rw [if_neg h]; simp

theorem dictInsert_length_of_present (c : List (String × SwitchPrintResult))
    (k : String) (v w : SwitchPrintResult) (h : cacheFind c k = some w) :
    (dictInsert c k v).length = c.length := by
  unfold dictInsert
  rw [if_pos, List.length_map]
  unfold cacheFind at h
  cases hf : c.find? fun kv => kv.1 == k with
  | none => rw [hf] at h; simp at h
  | some kv =>
    have hm := List.mem_of_find?_eq_some hf
    have hp := List.find?_some hf
    exact List.any_eq_true.mpr ⟨kv, hm, hp⟩

theorem cacheFind_append_singleton (c : List (String × SwitchPrintResult))
    (k : String) (v : SwitchPrintResult) (h : cacheFind c k = none) :
    cacheFind (c ++ [(k, v)]) k = some v := by
  unfold cacheFind at h ⊢
  rw [List.find?_append]
  cases hf : c.find? fun kv => kv.1 == k with
  | none => simp
  | some x => rw [hf] at h; simp at h

theorem cacheFind_drop (c : List (String × SwitchPrintResult)) (n : Nat)
    (k : String) (h : cacheFind c k = none) :
    cacheFind (c.drop n) k = none := by
  unfold cacheFind at h ⊢
  have hn : (c.find? fun kv => kv.1 == k) = none := by
    cases hf : c.find? fun kv => kv.1 == k with
    | none => rfl
    | some x => rw [hf] at h; simp at h
  rw [List.find?_eq_none] at hn
  have : (List.find? (fun kv => kv.1 == k) (c.drop n)) = none :=
    List.find?_eq_none.mpr fun x hx => hn x (List.mem_of_mem_drop hx)
  rw [this]
  rfl

theorem cacheFind_drop_append (c : List (String × SwitchPrintResult)) (n : Nat)
    (k : String) (v : SwitchPrintResult) (h : cacheFind c k = none)
    (hn : n ≤ c.length) :
    cacheFind ((c ++ [(k, v)]).drop n) k = some v := by
  rw [List.drop_append_of_le_length hn]
  exact cacheFind_append_singleton (c.drop n) k v (cacheFind_drop c n k h)

/-- Branch characterization of `analyze_text`: cache hit. -/
theorem analyze_hit_spec (env : DetectorEnv) (st : ServiceState) (text : String)
    (ul : List String) (fm : Bool) (pm : String) (t : ℚ) (r : SwitchPrintResult)
    (hfind : cacheFind st.cache (cacheKey text ul pm) = some r) :
    analyze_text env st text ul true fm pm t
      = ({ r with cache_hit := true, processing_time_ms := t },
         { cache := dictInsert st.cache (cacheKey text ul pm)
             { r with cache_hit := true, processing_time_ms := t }
           cache_hits := st.cache_hits + 1
           total_requests := st.total_requests + 1 }) := by
  unfold analyze_text
  simp only [if_true, hfind]

/-- Branch characterization of `analyze_text`: miss with the primary detector
not constructed, or raising — the call degrades to `fallback_analysis` and
only the request counter changes. -/
theorem analyze_fallback_spec (env : DetectorEnv) (st : ServiceState)
    (text : String) (ul : List String) (uc fm : Bool) (pm : String) (t : ℚ)
    (hmiss : (if uc then cacheFind st.cache (cacheKey text ul pm) else none) = none)
    (hfb : env.integrated_available = false ∨ ∃ e, env.primary_result = .error e) :
    analyze_text env st text ul uc fm pm t
      = (fallback_analysis env text ul t fm,
         { st with total_requests := st.total_requests + 1 }) := by
  unfold analyze_text
  simp only [hmiss]
  rcases hfb with hfb | ⟨e, hfb⟩
  · simp [hfb]
  · simp only [hfb]
    by_cases ha : env.integrated_available
    · simp [ha]
    · simp [ha]

/-- Branch characterization of `analyze_text`: miss with a successful primary
detector — the converted result is returned and, when caching is on, stored
(with the over-1000 eviction applied). -/
theorem analyze_primary_spec (env : DetectorEnv) (st : ServiceState)
    (text : String) (ul : List String) (uc fm : Bool) (pm : String) (t : ℚ)
    (sp : IntegratedResult)
    (hmiss : (if uc then cacheFind st.cache (cacheKey text ul pm) else none) = none)
    (havail : env.integrated_available = true)
    (hok : env.primary_result = .ok sp) :
    analyze_text env st text ul uc fm pm t
      = (convert_v2_1_2_result sp
           (if env.context_available then env.context_run.toOption else none)
           (if env.optimizer_available then env.optimizer_run.toOption else none)
           text ul t pm env.switchprint_version,
         { st with
             total_requests := st.total_requests + 1
             cache :=
               if uc then
                 let c1 := dictInsert st.cache (cacheKey text ul pm)
                   (convert_v2_1_2_result sp
                     (if env.context_available then env.context_run.toOption else none)
                     (if env.optimizer_available then env.optimizer_run.toOption else none)
                     text ul t pm env.switchprint_version)
                 if 1000 < c1.length then c1.drop 100 else c1
               else st.cache }) := by
  unfold analyze_text
  simp only [hmiss, havail, hok]
  by_cases huc : uc
  · simp [huc]
  · simp [huc]

theorem boolMember_iff (ul : List String) (s : String) :
    ((!ul.isEmpty) && ul.contains s) = true ↔ ul ≠ [] ∧ s ∈ ul := by
  simp only [Bool.and_eq_true, Bool.not_eq_true', List.isEmpty_eq_false,
    List.contains, List.elem_iff]

theorem bridgeUserMatch_iff (ul d : List String) :
    bridgeUserMatch ul d = true ↔ ul ≠ [] ∧ ∃ u ∈ ul, pyLower u ∈ d.map pyLower := by
  unfold bridgeUserMatch
  simp only [Bool.and_eq_true, Bool.not_eq_true', List.isEmpty_eq_false,
    List.any_eq_true, List.contains, List.elem_iff]
  constructor
  · rintro ⟨⟨h1, -⟩, u, hu, hc⟩
    exact ⟨h1, u, hu, hc⟩
  · rintro ⟨h1, u, hu, hc⟩
    refine ⟨⟨h1, ?_⟩, u, hu, hc⟩
    intro hd
    subst hd
    simp at hc

/-!
Claim theorems.
-/

/-- C1, counterexample.  The claim asserts the contiguous gap-free partition
invariant for the phrases of all three producers, including the worker.  On
the concrete run below the worker emits phrases with `startIndex`/`endIndex`
pairs `(0, 2)` and `(0, 1)`: the first phrase has two words but
`endIndex ≠ startIndex + wordCount - 1`, and the second phrase does not start
at the previous `endIndex + 1`, so the partition predicate fails. -/
theorem claim1_counterexample :
    ((worker_detect exModel true "aa bb cc" []).toOption.getD default).phrases.map
        (fun p => (p.startIndex, p.endIndex, p.words.length))
      = [(0, 2, 2), (0, 1, 1)] ∧
    ¬ coversFrom 0
        ((worker_detect exModel true "aa bb cc" []).toOption.getD default).tokens
        ((worker_detect exModel true "aa bb cc" []).toOption.getD default).phrases := by
  decide

/-- C1, amended.  The partition invariant holds for the two bridge
conversions: their phrases cover the token list contiguously, in order and
without gaps, with `startIndex 0` for the first phrase, `endIndex = startIndex
+ wordCount - 1`, each next phrase starting at the previous `endIndex + 1`,
phrase language equal to the language of every covered token, and word counts
summing to the token count.  The worker instead gives every phrase
`startIndex = 0` and `endIndex = wordCount`. -/
theorem claim1_theorem :
    (∀ (sp : IntegratedResult) (ctx : Option Unit)
       (opt : Option ContextOptimization) (text : String) (ul : List String)
       (t : ℚ) (pm v : String),
       coversFrom 0 (convert_v2_1_2_result sp ctx opt text ul t pm v).tokens
         (convert_v2_1_2_result sp ctx opt text ul t pm v).phrases ∧
       ((convert_v2_1_2_result sp ctx opt text ul t pm v).phrases.map fun p =>
           p.words.length).sum
         = (convert_v2_1_2_result sp ctx opt text ul t pm v).tokens.length) ∧
    (∀ (sp : EnsembleResult) (text : String) (ul : List String) (t : ℚ),
       coversFrom 0 (convert_legacy_result sp text ul t).tokens
         (convert_legacy_result sp text ul t).phrases ∧
       ((convert_legacy_result sp text ul t).phrases.map fun p =>
           p.words.length).sum
         = (convert_legacy_result sp text ul t).tokens.length) ∧
    (∀ toks : List Token, ∀ p ∈ workerPhrases toks,
       p.startIndex = 0 ∧ p.endIndex = (p.words.length : Int)) := by
  refine ⟨?_, ?_, ?_⟩
  · intro sp ctx opt text ul t pm v
    refine ⟨groupBridge_covers _ _ _, coversFrom_sum _ 0 _ (groupBridge_covers _ _ _)⟩
  · intro sp text ul t
    refine ⟨groupBridge_covers _ _ _, coversFrom_sum _ 0 _ (groupBridge_covers _ _ _)⟩
  · intro toks p hp
    exact ⟨(workerPhrases_shape toks p hp).1, (workerPhrases_shape toks p hp).2.1⟩

/-- C1, witness: the worker clause of the theorem applied to one concrete
token list. -/
theorem claim1_witness :
    (create_phrase [⟨"aa", "en", "English", 1⟩]
        ∈ workerPhrases [⟨"aa", "en", "English", 1⟩]) ∧
    (create_phrase [⟨"aa", "en", "English", 1⟩]).startIndex = 0 ∧
    (create_phrase [⟨"aa", "en", "English", 1⟩]).endIndex
      = ((create_phrase [⟨"aa", "en", "English", 1⟩]).words.length : Int) :=
  ⟨List.mem_singleton.mpr rfl, claim1_theorem.2.2 [⟨"aa", "en", "English", 1⟩]
    (create_phrase [⟨"aa", "en", "English", 1⟩]) (List.mem_singleton.mpr rfl)⟩

/-- C2, counterexample.  On the concrete run below the worker switch-point
list is `[2, 1]`, which is not strictly increasing (and has elements that are
not valid token boundary indices, since the phrase `endIndex` values are the
word counts). -/
theorem claim2_counterexample :
    ((worker_detect exModel true "aa bb cc dd" []).toOption.getD default).switchPoints
      = [2, 1] ∧
    ¬ strictlyIncreasing
        ((worker_detect exModel true "aa bb cc dd" []).toOption.getD default).switchPoints := by
  decide

/-- C2, amended.  The primary conversion returns the upstream switch-point
list unchanged (no length or monotonicity guarantee is established), and the
legacy conversion returns the extracted upstream list.  The worker list
contains, for each adjacent phrase pair with differing language names, the
earlier phrase endIndex — which the worker sets to that phrase word count —
so it has at most `len(phrases) - 1` elements but need not be strictly
increasing. -/
theorem claim2_theorem :
    (∀ (sp : IntegratedResult) (ctx : Option Unit)
       (opt : Option ContextOptimization) (text : String) (ul : List String)
       (t : ℚ) (pm v : String),
       (convert_v2_1_2_result sp ctx opt text ul t pm v).switch_points
         = sp.switch_points) ∧
    (∀ (sp : EnsembleResult) (text : String) (ul : List String) (t : ℚ),
       (convert_legacy_result sp text ul t).switch_points
         = if sp.has_switch_points then extractLegacySP sp.switch_points else []) ∧
    (∀ ps : List Phrase, (workerSwitchPoints ps).length ≤ ps.length - 1) ∧
    (∀ (ps : List Phrase) (x : Int), x ∈ workerSwitchPoints ps →
       ∃ p ∈ ps, x = p.endIndex) ∧
    (∀ toks : List Token, ∀ p ∈ workerPhrases toks,
       p.endIndex = (p.words.length : Int)) := by
  refine ⟨fun _ _ _ _ _ _ _ _ => rfl, fun _ _ _ _ => rfl, workerSwitchPoints_le,
    workerSwitchPoints_mem, ?_⟩
  intro toks p hp
  exact (workerPhrases_shape toks p hp).2.1

/-- C2, witness: the worker clauses applied at a concrete phrase list. -/
theorem claim2_witness :
    ((2 : Int) ∈ workerSwitchPoints
        [⟨["aa"], "aa", "English", 1, 0, 2, false⟩,
         ⟨["bb"], "bb", "Spanish", 1, 0, 1, false⟩]) ∧
    ∃ p ∈ [(⟨["aa"], "aa", "English", 1, 0, 2, false⟩ : Phrase),
           ⟨["bb"], "bb", "Spanish", 1, 0, 1, false⟩], (2 : Int) = p.endIndex :=
  ⟨by decide, claim2_theorem.2.2.2.1
    [⟨["aa"], "aa", "English", 1, 0, 2, false⟩,
     ⟨["bb"], "bb", "Spanish", 1, 0, 1, false⟩] 2 (by decide)⟩

/-- C9 (confirmed).  In the worker request loop, blank lines are skipped with
no response, an invalid JSON line produces exactly one
`Invalid JSON: ...` error line, a parsed request with missing or empty text
produces `No text provided`, every non-blank line produces exactly one
response line, and the loop continues with the remaining lines afterwards. -/
theorem claim9_theorem (m : WorkerModel) (ml : Bool) :
    (processLine m ml .blank = []) ∧
    (∀ msg, processLine m ml (.invalidJson msg)
       = [.errorResp ("Invalid JSON: " ++ msg)]) ∧
    (∀ langs, processLine m ml (.request "" langs)
       = [.errorResp "No text provided"]) ∧
    (∀ l, l ≠ .blank → (processLine m ml l).length = 1) ∧
    (∀ l rest, workerLoop m ml (l :: rest)
       = processLine m ml l ++ workerLoop m ml rest) := by
  refine ⟨rfl, fun _ => rfl, fun _ => rfl, ?_, fun _ _ => rfl⟩
  intro l hl
  cases l with
  | blank => exact absurd rfl hl
  | invalidJson msg => rfl
  | badRequest msg => rfl
  | request text langs =>
    simp only [processLine]
    split
    · rfl
    · split <;> rfl

/-- C9, witness: the per-line clauses at concrete lines. -/
theorem claim9_witness :
    ((WorkerLine.invalidJson "x") ≠ WorkerLine.blank) ∧
    (processLine exModel true (.invalidJson "x")).length = 1 :=
  And.intro (by intro h; exact nomatch h)
    ((claim9_theorem exModel true).2.2.2.1 (.invalidJson "x")
      (by intro h; exact nomatch h))

/-- C5, counterexample.  With user languages `["English"]` and detected
language `english`, the result-level match is true (case-folded comparison),
but the phrase built for the same result has `isUserLanguage = false`,
because the phrase-level test is plain case-sensitive list membership.  The
claim asserts the phrase flag would be true under case-insensitive
comparison. -/
theorem claim5_counterexample :
    (convert_v2_1_2_result exSP none none "hello world" ["English"] 1 "balanced"
        "2.1.2").user_language_match = true ∧
    (convert_v2_1_2_result exSP none none "hello world" ["English"] 1 "balanced"
        "2.1.2").phrases.map (fun p => (p.language, p.isUserLanguage))
      = [("english", false)] := by
  decide

/-- C5, amended.  In the two bridge conversions the result-level
`userLanguageMatch` is true exactly when some user language, case-folded,
equals some detected language, case-folded — in particular it is false for an
empty user-language list.  The phrase-level `isUserLanguage`, however, is
case-SENSITIVE membership of the phrase language in the user-language list
(with a nonempty list), and the worker always sets it to false. -/
theorem claim5_theorem :
    (∀ (sp : IntegratedResult) (ctx : Option Unit)
       (opt : Option ContextOptimization) (text : String) (ul : List String)
       (t : ℚ) (pm v : String),
       ((convert_v2_1_2_result sp ctx opt text ul t pm v).user_language_match = true
         ↔ ul ≠ [] ∧ ∃ u ∈ ul, pyLower u ∈ sp.detected_languages.map pyLower)) ∧
    (∀ (sp : EnsembleResult) (text : String) (ul : List String) (t : ℚ),
       ((convert_legacy_result sp text ul t).user_language_match = true
         ↔ ul ≠ [] ∧ ∃ u ∈ ul, pyLower u ∈ sp.detected_languages.map pyLower)) ∧
    (∀ (sp : IntegratedResult) (ctx : Option Unit)
       (opt : Option ContextOptimization) (text : String) (ul : List String)
       (t : ℚ) (pm v : String),
       ∀ p ∈ (convert_v2_1_2_result sp ctx opt text ul t pm v).phrases,
         (p.isUserLanguage = true ↔ ul ≠ [] ∧ p.language ∈ ul)) ∧
    (∀ (sp : EnsembleResult) (text : String) (ul : List String) (t : ℚ),
       ∀ p ∈ (convert_legacy_result sp text ul t).phrases,
         (p.isUserLanguage = true ↔ ul ≠ [] ∧ p.language ∈ ul)) ∧
    (∀ toks : List Token, ∀ p ∈ workerPhrases toks, p.isUserLanguage = false) := by
  refine ⟨?_, ?_, ?_, ?_, ?_⟩
  · intro sp ctx opt text ul t pm v
    exact bridgeUserMatch_iff ul sp.detected_languages
  · intro sp text ul t
    exact bridgeUserMatch_iff ul sp.detected_languages
  · intro sp ctx opt text ul t pm v p hp
    rw [groupBridge_isUserLanguage _ _ _ p hp]
    exact boolMember_iff ul p.language
  · intro sp text ul t p hp
    rw [groupBridge_isUserLanguage _ _ _ p hp]
    exact boolMember_iff ul p.language
  · intro toks p hp
    exact (workerPhrases_shape toks p hp).2.2

/-- C5, witness: the worker clause applied to one concrete token list. -/
theorem claim5_witness :
    (create_phrase [⟨"bb", "es", "Spanish", 1⟩]
        ∈ workerPhrases [⟨"bb", "es", "Spanish", 1⟩]) ∧
    (create_phrase [⟨"bb", "es", "Spanish", 1⟩]).isUserLanguage = false :=
  ⟨List.mem_singleton.mpr rfl, claim5_theorem.2.2.2.2 [⟨"bb", "es", "Spanish", 1⟩]
    (create_phrase [⟨"bb", "es", "Spanish", 1⟩]) (List.mem_singleton.mpr rfl)⟩

/-- C3, counterexample.  The claim says the mock result carries the error
annotation of the failed legacy tier.  `_get_mock_result` accepts the error
argument and never uses it — the result has no error field at all — so the
mock result is identical with and without an error. -/
theorem claim3_counterexample :
    get_mock_result "hola mundo" [] 5 (some "legacy exploded")
      = get_mock_result "hola mundo" [] 5 none := rfl

/-- C3, amended.  `analyze_text` is total and tier-degrading: with a usable
primary detector the converted primary result is returned regardless of
enrichment failures (failed context or optimizer stages are replaced by
`none`); with the primary tier absent or raising, the call degrades to
`_fallback_analysis`; there, a missing legacy detector gives the mock result,
a raising chosen detector gives the mock result with the exception text
passed as an argument that the mock constructor ignores (the claim wording
that the mock carries the error annotation is dropped), and a succeeding
chosen detector gives the converted legacy result. -/
theorem claim3_theorem (env : DetectorEnv) (st : ServiceState) (text : String)
    (ul : List String) (uc fm : Bool) (pm : String) (t : ℚ)
    (hmiss : (if uc then cacheFind st.cache (cacheKey text ul pm) else none) = none) :
    (∀ sp, env.integrated_available = true → env.primary_result = .ok sp →
       (analyze_text env st text ul uc fm pm t).1
         = convert_v2_1_2_result sp
             (if env.context_available then env.context_run.toOption else none)
             (if env.optimizer_available then env.optimizer_run.toOption else none)
             text ul t pm env.switchprint_version) ∧
    (∀ e, env.integrated_available = true → env.primary_result = .error e →
       (analyze_text env st text ul uc fm pm t).1
         = fallback_analysis env text ul t fm) ∧
    (env.integrated_available = false →
       (analyze_text env st text ul uc fm pm t).1
         = fallback_analysis env text ul t fm) ∧
    (env.legacy_available = false →
       fallback_analysis env text ul t fm = get_mock_result text ul t none) ∧
    (∀ e2, env.legacy_available = true →
       (if fm ∧ env.fasttext_available then env.fasttext_result
        else env.legacy_result) = .error e2 →
       fallback_analysis env text ul t fm = get_mock_result text ul t (some e2)) ∧
    (∀ sp2, env.legacy_available = true →
       (if fm ∧ env.fasttext_available then env.fasttext_result
        else env.legacy_result) = .ok sp2 →
       fallback_analysis env text ul t fm = convert_legacy_result sp2 text ul t) := by
  refine ⟨?_, ?_, ?_, ?_, ?_, ?_⟩
  · intro sp ha hok
    rw [analyze_primary_spec env st text ul uc fm pm t sp hmiss ha hok]
  · intro e ha herr
    rw [analyze_fallback_spec env st text ul uc fm pm t hmiss (Or.inr ⟨e, herr⟩)]
  · intro ha
    rw [analyze_fallback_spec env st text ul uc fm pm t hmiss (Or.inl ha)]
  · intro hleg
    unfold fallback_analysis
    simp [hleg]
  · intro e2 hleg hchosen
    unfold fallback_analysis
    simp only [hleg, not_true, if_neg, hchosen]
    simp
  · intro sp2 hleg hchosen
    unfold fallback_analysis
    simp only [hleg, not_true, if_neg, hchosen]
    simp

/-- C3, witness: the theorem applied with an empty cache, no detector tier
available, and the legacy tier absent. -/
theorem claim3_witness :
    ((if true then cacheFind initialState.cache (cacheKey "hola" [] "balanced")
        else none) = none) ∧
    (analyze_text envNoDet initialState "hola" [] true false "balanced" 1).1
      = fallback_analysis envNoDet "hola" [] 1 false :=
  ⟨rfl, (claim3_theorem envNoDet initialState "hola" [] true false "balanced" 1
    rfl).2.2.1 rfl⟩

/-- C4, counterexample.  The claim says the mock result carries a version tag
identifying the mock tier and distinguishing it from the real tiers.  The
source never sets `version` in `_get_mock_result`, so the dataclass default
`"2.1.2"` applies — exactly the tag the primary v2.1.2 tier uses — so the
mock is not distinguishable by its version. -/
theorem claim4_counterexample :
    (get_mock_result "hola" ["spanish"] 1 none).version = "2.1.2" ∧
    (convert_v2_1_2_result exSP none none "hola" ["spanish"] 1 "balanced"
        "2.1.2").version = "2.1.2" := by
  decide

/-- C4, amended.  When no real detector tier is usable, `analyze_text`
returns the deterministic mock result: every token carries
`userLanguages[0]` (or `english` for a missing or empty list) with
confidence exactly 0.85, there is exactly one phrase spanning all words with
`startIndex 0` and `endIndex len(words) - 1`, the switch-point list is
empty — but the version field is the dataclass default `"2.1.2"`, not a
mock-identifying tag. -/
theorem claim4_theorem (env : DetectorEnv) (st : ServiceState) (text : String)
    (ul : List String) (uc fm : Bool) (pm : String) (t : ℚ)
    (hmiss : (if uc then cacheFind st.cache (cacheKey text ul pm) else none) = none) :
    (env.integrated_available = false → env.legacy_available = false →
       (analyze_text env st text ul uc fm pm t).1 = get_mock_result text ul t none) ∧
    (∀ e e2, env.integrated_available = true → env.primary_result = .error e →
       env.legacy_available = true →
       (if fm ∧ env.fasttext_available then env.fasttext_result
        else env.legacy_result) = .error e2 →
       (analyze_text env st text ul uc fm pm t).1
         = get_mock_result text ul t (some e2)) ∧
    (∀ (text2 : String) (ul2 : List String) (t2 : ℚ) (err : Option String),
       (get_mock_result text2 ul2 t2 err).tokens
           = (pySplit text2).map (fun w =>
               ⟨w, if ul2.isEmpty then "english" else ul2.headD "english",
                 if ul2.isEmpty then "english" else ul2.headD "english",
                 85/100⟩) ∧
       (get_mock_result text2 ul2 t2 err).phrases
           = [⟨pySplit text2, text2,
               (if ul2.isEmpty then "english" else ul2.headD "english"),
               85/100, 0, ((pySplit text2).length : Int) - 1, true⟩] ∧
       (get_mock_result text2 ul2 t2 err).switch_points = [] ∧
       (get_mock_result text2 ul2 t2 err).confidence = 85/100 ∧
       (get_mock_result text2 ul2 t2 err).version = "2.1.2") := by
  refine ⟨?_, ?_, ?_⟩
  · intro hi hleg
    rw [analyze_fallback_spec env st text ul uc fm pm t hmiss (Or.inl hi)]
    unfold fallback_analysis
    simp [hleg]
  · intro e e2 hi herr hleg hchosen
    rw [analyze_fallback_spec env st text ul uc fm pm t hmiss (Or.inr ⟨e, herr⟩)]
    unfold fallback_analysis
    simp only [hleg, not_true, if_neg, hchosen]
    simp
  · intro text2 ul2 t2 err
    exact ⟨rfl, rfl, rfl, rfl, rfl⟩

/-- C4, witness: the theorem applied with an empty cache and no detector
available. -/
theorem claim4_witness :
    ((if true then cacheFind initialState.cache (cacheKey "hola" ["spanish"] "balanced")
        else none) = none) ∧
    (analyze_text envNoDet initialState "hola" ["spanish"] true false "balanced" 1).1
      = get_mock_result "hola" ["spanish"] 1 none :=
  ⟨rfl, (claim4_theorem envNoDet initialState "hola" ["spanish"] true false
    "balanced" 1 rfl).1 rfl rfl⟩

/-- C6, counterexample.  First conjunct: with every detector unavailable the
(mock) result of the first call is never stored, so the identical second call
still reports `cache_hit = false` — the claim asserts caching for every
tier.  Second conjunct: even on the primary tier, two calls whose
user-language lists are permutations of each other (identical sorted lists)
do not share a cache entry, because the key joins the list in the order
given. -/
theorem claim6_counterexample :
    ((analyze_text envNoDet
        (analyze_text envNoDet initialState "hola" [] true false "balanced" 1).2
        "hola" [] true false "balanced" 2).1).cache_hit = false ∧
    ((analyze_text envPrimary
        (analyze_text envPrimary initialState "hola" ["aa", "bb"] true false
          "balanced" 1).2
        "hola" ["bb", "aa"] true false "balanced" 2).1).cache_hit = false := by
  decide

/-- C6, amended.  With caching on, a cache-miss analysis that succeeds on the
PRIMARY tier is stored; a second call with the identical text,
user-language list in the same order, and performance mode — under any
detector environment — returns the stored result with `cache_hit = true`
and the new processing time, all other fields identical; the first call
reports `cache_hit = false`.  Fallback-tier results are never stored. -/
theorem claim6_theorem (env env2 : DetectorEnv) (st : ServiceState)
    (text : String) (ul : List String) (fm fm2 : Bool) (pm : String)
    (t1 t2 : ℚ) (sp : IntegratedResult)
    (hmiss : cacheFind st.cache (cacheKey text ul pm) = none)
    (havail : env.integrated_available = true)
    (hok : env.primary_result = .ok sp) :
    ((analyze_text env st text ul true fm pm t1).1.cache_hit = false) ∧
    ((analyze_text env2 (analyze_text env st text ul true fm pm t1).2 text ul
        true fm2 pm t2).1
      = { (analyze_text env st text ul true fm pm t1).1 with
            cache_hit := true, processing_time_ms := t2 }) := by
  have hmiss' : (if true then cacheFind st.cache (cacheKey text ul pm) else none)
      = none := by simpa using hmiss
  have h1 := analyze_primary_spec env st text ul true fm pm t1 sp hmiss' havail hok
  rw [h1]
  set r := convert_v2_1_2_result sp
    (if env.context_available then env.context_run.toOption else none)
    (if env.optimizer_available then env.optimizer_run.toOption else none)
    text ul t1 pm env.switchprint_version with hr
  refine ⟨rfl, ?_⟩
  have hins : dictInsert st.cache (cacheKey text ul pm) r
      = st.cache ++ [(cacheKey text ul pm, r)] :=
    dictInsert_of_find_none st.cache (cacheKey text ul pm) r hmiss
  have hfind2 : cacheFind
      (({ st with
            total_requests := st.total_requests + 1
            cache :=
              if true then
                let c1 := dictInsert st.cache (cacheKey text ul pm) r
                if 1000 < c1.length then c1.drop 100 else c1
              else st.cache } : ServiceState).cache)
      (cacheKey text ul pm) = some r := by
    simp only [if_true, hins]
    by_cases hlen : 1000 < (st.cache ++ [(cacheKey text ul pm, r)]).length
    · rw [if_pos hlen]
      have hlen2 : 100 ≤ st.cache.length := by
        simp only [List.length_append, List.length_cons, List.length_nil] at hlen
        omega
      exact cacheFind_drop_append st.cache 100 (cacheKey text ul pm) r hmiss hlen2
    · rw [if_neg hlen]
      exact cacheFind_append_singleton st.cache (cacheKey text ul pm) r hmiss
  rw [analyze_hit_spec env2 _ text ul fm2 pm t2 r hfind2]

/-- C6, witness: the theorem applied with an empty cache and a succeeding
primary detector. -/
theorem claim6_witness :
    cacheFind initialState.cache (cacheKey "hola" ["es"] "balanced") = none ∧
    envPrimary.integrated_available = true ∧
    envPrimary.primary_result = .ok exSP ∧
    (analyze_text envPrimary initialState "hola" ["es"] true false "balanced" 1).1.cache_hit
      = false :=
  ⟨rfl, rfl, rfl,
   (claim6_theorem envPrimary envPrimary initialState "hola" ["es"] false false
     "balanced" 1 2 exSP rfl rfl rfl).1⟩

/-- C7 (confirmed).  Starting from a cache within the 1000-entry ceiling,
every `analyze_text` call leaves the cache within the ceiling.  When a store
pushes the size to 1001, exactly one eviction batch drops the 100
oldest-inserted entries (the first 100 in insertion order), the newly
inserted entry survives, and 901 entries remain. -/
theorem claim7_theorem (env : DetectorEnv) (st : ServiceState) (text : String)
    (ul : List String) (uc fm : Bool) (pm : String) (t : ℚ)
    (h : st.cache.length ≤ 1000) :
    ((analyze_text env st text ul uc fm pm t).2.cache.length ≤ 1000) ∧
    (∀ sp, uc = true → cacheFind st.cache (cacheKey text ul pm) = none →
       env.integrated_available = true → env.primary_result = .ok sp →
       st.cache.length = 1000 →
       (analyze_text env st text ul uc fm pm t).2.cache
           = (st.cache ++ [(cacheKey text ul pm,
               (analyze_text env st text ul uc fm pm t).1)]).drop 100 ∧
         (cacheKey text ul pm, (analyze_text env st text ul uc fm pm t).1)
           ∈ (analyze_text env st text ul uc fm pm t).2.cache ∧
         (analyze_text env st text ul uc fm pm t).2.cache.length = 901) := by
  constructor
  · cases hfind : (if uc then cacheFind st.cache (cacheKey text ul pm) else none) with
    | some r =>
      have huc : uc = true := by
        cases uc with
        | false => simp at hfind
        | true => rfl
      subst huc
      have hf : cacheFind st.cache (cacheKey text ul pm) = some r := by
        simpa using hfind
      rw [analyze_hit_spec env st text ul fm pm t r hf]
      simpa [dictInsert_length_of_present st.cache (cacheKey text ul pm) _ r hf]
        using h
    | none =>
      by_cases ha : env.integrated_available = true
      · cases hok : env.primary_result with
        | error e =>
          rw [analyze_fallback_spec env st text ul uc fm pm t hfind
            (Or.inr ⟨e, hok⟩)]
          exact h
        | ok sp =>
          rw [analyze_primary_spec env st text ul uc fm pm t sp hfind ha hok]
          by_cases huc : uc = true
          · subst huc
            simp only [if_true]
            have hc1 := dictInsert_length_le st.cache (cacheKey text ul pm)
              (convert_v2_1_2_result sp
                (if env.context_available then env.context_run.toOption else none)
                (if env.optimizer_available then env.optimizer_run.toOption else none)
                text ul t pm env.switchprint_version)
            by_cases hlen : 1000 < (dictInsert st.cache (cacheKey text ul pm)
                (convert_v2_1_2_result sp
                  (if env.context_available then env.context_run.toOption else none)
                  (if env.optimizer_available then env.optimizer_run.toOption else none)
                  text ul t pm env.switchprint_version)).length
            · rw [if_pos hlen]
              simp only [List.length_drop]
              omega
            · rw [if_neg hlen]
              omega
          · have huc2 : uc = false := by
              cases uc with
              | false => rfl
              | true => exact absurd rfl huc
            subst huc2
            simpa using h
      · have ha2 : env.integrated_available = false := by
          cases hv : env.integrated_available with
          | false => rfl
          | true => exact absurd hv ha
        rw [analyze_fallback_spec env st text ul uc fm pm t hfind (Or.inl ha2)]
        exact h
  · intro sp huc hm ha hok hlen1000
    subst huc
    have hmiss' : (if true then cacheFind st.cache (cacheKey text ul pm) else none)
        = none := by simpa using hm
    rw [analyze_primary_spec env st text ul true fm pm t sp hmiss' ha hok]
    set r := convert_v2_1_2_result sp
      (if env.context_available then env.context_run.toOption else none)
      (if env.optimizer_available then env.optimizer_run.toOption else none)
      text ul t pm env.switchprint_version with hr
    have hins : dictInsert st.cache (cacheKey text ul pm) r
        = st.cache ++ [(cacheKey text ul pm, r)] :=
      dictInsert_of_find_none st.cache (cacheKey text ul pm) r hm
    simp only [if_true, hins]
    have hlen : (st.cache ++ [(cacheKey text ul pm, r)]).length = 1001 := by
      simp [hlen1000]
    rw [if_pos (by omega)]
    refine ⟨rfl, ?_, ?_⟩
    · rw [List.drop_append_of_le_length (by omega)]
      exact List.mem_append_right _ (List.mem_singleton.mpr rfl)
    · simp only [List.length_drop, hlen]

/-- C7, witness: the bound applied to the fresh service state. -/
theorem claim7_witness :
    initialState.cache.length ≤ 1000 ∧
    (analyze_text envNoDet initialState "hola" [] true false "balanced" 1).2.cache.length
      ≤ 1000 :=
  ⟨by decide, (claim7_theorem envNoDet initialState "hola" [] true false
    "balanced" 1 (by decide)).1⟩

/-- C10 (confirmed).  `get_cache_stats` divides by `max(total_requests, 1)`,
which is at least 1, so the hit rate is well defined and lies in `[0, 1]`
whenever `cache_hits ≤ total_requests`; that inequality holds initially, is
preserved by every `analyze_text` call (the request counter is incremented
first, the hit counter at most once afterwards), and `clear_cache` resets
neither counter. -/
theorem claim10_theorem (st : ServiceState)
    (h : st.cache_hits ≤ st.total_requests) :
    1 ≤ max st.total_requests 1 ∧
    (0 ≤ (get_cache_stats st).hit_rate ∧ (get_cache_stats st).hit_rate ≤ 1) ∧
    (∀ (env : DetectorEnv) (text : String) (ul : List String) (uc fm : Bool)
       (pm : String) (t : ℚ),
       (analyze_text env st text ul uc fm pm t).2.cache_hits
         ≤ (analyze_text env st text ul uc fm pm t).2.total_requests) ∧
    ((clear_cache st).cache_hits = st.cache_hits ∧
     (clear_cache st).total_requests = st.total_requests) ∧
    initialState.cache_hits ≤ initialState.total_requests := by
  have hmax : (1 : Nat) ≤ max st.total_requests 1 := le_max_right _ _
  refine ⟨hmax, ⟨?_, ?_⟩, ?_, ⟨rfl, rfl⟩, Nat.le_refl 0⟩
  · unfold get_cache_stats
    positivity
  · unfold get_cache_stats
    rw [div_le_one (by positivity)]
    have hle : st.cache_hits ≤ max st.total_requests 1 :=
      le_trans h (le_max_left _ _)
    exact_mod_cast hle
  · intro env text ul uc fm pm t
    cases hfind : (if uc then cacheFind st.cache (cacheKey text ul pm) else none) with
    | some r =>
      have huc : uc = true := by
        cases uc with
        | false => simp at hfind
        | true => rfl
      subst huc
      have hf : cacheFind st.cache (cacheKey text ul pm) = some r := by
        simpa using hfind
      rw [analyze_hit_spec env st text ul fm pm t r hf]
      simpa using Nat.succ_le_succ h
    | none =>
      by_cases ha : env.integrated_available = true
      · cases hok : env.primary_result with
        | error e =>
          rw [analyze_fallback_spec env st text ul uc fm pm t hfind
            (Or.inr ⟨e, hok⟩)]
          exact le_trans h (Nat.le_succ _)
        | ok sp =>
          rw [analyze_primary_spec env st text ul uc fm pm t sp hfind ha hok]
          exact le_trans h (Nat.le_succ _)
      · have ha2 : env.integrated_available = false := by
          cases hv : env.integrated_available with
          | false => rfl
          | true => exact absurd hv ha
        rw [analyze_fallback_spec env st text ul uc fm pm t hfind (Or.inl ha2)]
        exact le_trans h (Nat.le_succ _)

/-- C10, witness: the theorem applied to the fresh service state. -/
theorem claim10_witness :
    initialState.cache_hits ≤ initialState.total_requests ∧
    1 ≤ max initialState.total_requests 1 :=
  ⟨by decide, (claim10_theorem initialState (by decide)).1⟩

/-- C8 (confirmed).  In the multi-language walk, token `k` receives
`detectedLanguages[current]` where `current` is the number of switch-point
hits among indices `0..k` — taken modulo `len(detectedLanguages)` in the
primary conversion (cyclic wrap) and clamped at `len(detectedLanguages) - 1`
in the legacy conversion; with one language or no switch points, every token
receives the first detected language. -/
theorem claim8_theorem :
    (∀ (words langs : List String) (sps : List Int) (conf : ℚ) (k : Nat),
       1 < langs.length → sps ≠ [] →
       (assignTokensV2 words langs sps conf).get? k
         = (words.get? k).map fun w =>
             ⟨w, langs.getD (spCount sps k % langs.length) "unknown",
               langs.getD (spCount sps k % langs.length) "unknown", conf⟩) ∧
    (∀ (words langs : List String) (sps : List Int) (conf : ℚ) (k : Nat),
       1 < langs.length → sps ≠ [] →
       (assignTokensLegacy words langs sps conf).get? k
         = (words.get? k).map fun w =>
             ⟨w, langs.getD (min (spCount sps k) (langs.length - 1)) "unknown",
               langs.getD (min (spCount sps k) (langs.length - 1)) "unknown",
               conf⟩) ∧
    (∀ (words langs : List String) (sps : List Int) (conf : ℚ),
       ¬ (1 < langs.length ∧ sps ≠ []) →
       assignTokensV2 words langs sps conf
           = words.map (fun w =>
               ⟨w, langs.headD "unknown", langs.headD "unknown", conf⟩) ∧
       assignTokensLegacy words langs sps conf
           = words.map (fun w =>
               ⟨w, langs.headD "unknown", langs.headD "unknown", conf⟩)) := by
  refine ⟨?_, ?_, ?_⟩
  · intro words langs sps conf k h1 h2
    unfold assignTokensV2
    rw [if_pos ⟨h1, h2⟩]
    have hne : langs ≠ [] := by
      intro hnil
      subst hnil
      simp at h1
    rw [walkV2_get? langs sps conf hne words 0 0 k]
    cases hw : words.get? k with
    | none => rfl
    | some w =>
      simp only [Option.map_some]
      rw [stepsV2_closed sps langs.length (by omega) k]
  · intro words langs sps conf k h1 h2
    unfold assignTokensLegacy
    rw [if_pos ⟨h1, h2⟩]
    have hne : langs ≠ [] := by
      intro hnil
      subst hnil
      simp at h1
    rw [walkLegacy_get? langs sps conf hne words 0 0 k]
    cases hw : words.get? k with
    | none => rfl
    | some w =>
      simp only [Option.map_some]
      rw [stepsLegacy_closed sps langs.length (by omega) k]
      have hlt : min (spCount sps k) (langs.length - 1) < langs.length := by
        omega
      rw [if_pos hlt]
  · intro words langs sps conf hno
    constructor
    · unfold assignTokensV2
      rw [if_neg hno]
    · unfold assignTokensLegacy
      rw [if_neg hno]

/-- C8, witness: the cyclic-wrap clause at a concrete two-language input with
a switch point at index 0. -/
theorem claim8_witness :
    (1 < (["en", "es"] : List String).length) ∧ (([0] : List Int) ≠ []) ∧
    (assignTokensV2 ["aa", "bb"] ["en", "es"] [0] 1).get? 0
      = ((["aa", "bb"] : List String).get? 0).map (fun w =>
          ⟨w, (["en", "es"] : List String).getD
              (spCount [0] 0 % (["en", "es"] : List String).length) "unknown",
            (["en", "es"] : List String).getD
              (spCount [0] 0 % (["en", "es"] : List String).length) "unknown",
            1⟩) :=
  ⟨by decide, by decide,
   claim8_theorem.1 ["aa", "bb"] ["en", "es"] [0] 1 0 (by decide) (by decide)⟩

end CodeBoard
